import Mathlib

/-!
Shallow embedding of the `PeerConnection` session-orchestration core
(`src/peer/mod.rs` of the medea-jason repository) and proofs about it.

The embedding models the observable state owned by a `PeerConnection`
(`has_remote_description` flag, `ice_candidates_buffer`, `sent_stats_cache`,
registered native callbacks) and the operations on it
(`add_ice_candidate`, `set_remote_description`, `send_peer_stats`,
`update_local_stream`, `bind_event_listeners`, `Drop`).  External
collaborators (the native `platform::RtcPeerConnection`, track registry,
`MediaManager`) are modelled as oracle functions supplied as parameters;
calls made on them and `PeerEvent`s emitted are recorded in explicit traces.
-/

deriving instance DecidableEq for Except

namespace Medea

/-- An ICE candidate triple, as in `platform::IceCandidate`
(`candidate`, `sdp_m_line_index`, `sdp_mid`). -/
structure IceCandidate where
  candidate : String
  sdp_m_line_index : Option Nat
  sdp_mid : Option String
deriving DecidableEq

/-- Relevant variants of `platform::RtcPeerConnectionError`. -/
inductive RtcPeerConnectionError where
  | SetRemoteDescriptionFailed
  | AddIceCandidateFailed
deriving DecidableEq

/-- The `PeerConnection` state that the ICE-candidate protocol reads and
writes: the `has_remote_description : Cell<bool>` flag and the
`ice_candidates_buffer : RefCell<Vec<platform::IceCandidate>>`. -/
structure PeerIceState where
  has_remote_description : Bool
  ice_candidates_buffer : List IceCandidate
deriving DecidableEq

/-- The state right after `PeerConnection::new`:
`has_remote_description: Cell::new(false)`,
`ice_candidates_buffer: RefCell::new(Vec::new())`. -/
def initialIceState : PeerIceState :=
  { has_remote_description := false, ice_candidates_buffer := [] }

/-- Result of one operation on the ICE state: the new state, the list of
`add_ice_candidate` calls made on the native `platform::RtcPeerConnection`
(in call order), and the returned `Result`. -/
structure IceStepResult where
  state : PeerIceState
  nativeCalls : List IceCandidate
  result : Except RtcPeerConnectionError Unit
deriving DecidableEq

/-- `PeerConnection::add_ice_candidate`: if `has_remote_description` is set,
submit the candidate to the native connection (the native outcome is given
by the oracle `nadd`; a rejection surfaces as `AddIceCandidateFailed`);
otherwise push it onto `ice_candidates_buffer` and return `Ok(())`. -/
def add_ice_candidate (nadd : IceCandidate → Bool) (s : PeerIceState)
    (c : IceCandidate) : IceStepResult :=
  if s.has_remote_description then
    { state := s
      nativeCalls := [c]
      result :=
        if nadd c then Except.ok () else
          Except.error RtcPeerConnectionError.AddIceCandidateFailed }
  else
    { state :=
        { s with
          ice_candidates_buffer := s.ice_candidates_buffer ++ [c] }
      nativeCalls := []
      result := Except.ok () }

/-- `PeerConnection::set_remote_description`: apply the description on the
native connection (outcome given by `srdOk`); on failure return
`SetRemoteDescriptionFailed` before touching any state.  On success set
`has_remote_description` to `true`, then drain `ice_candidates_buffer`
entirely, submitting every buffered candidate to the native connection
(outcomes given by `nadd`); a failed submission surfaces as
`AddIceCandidateFailed`, but the buffer stays drained. -/
def set_remote_description (srdOk : Bool) (nadd : IceCandidate → Bool)
    (s : PeerIceState) : IceStepResult :=
  if srdOk then
    let flushed := s.ice_candidates_buffer
    { state := { has_remote_description := true, ice_candidates_buffer := [] }
      nativeCalls := flushed
      result :=
        if flushed.all nadd then Except.ok () else
          Except.error RtcPeerConnectionError.AddIceCandidateFailed }
  else
    { state := s
      nativeCalls := []
      result := Except.error RtcPeerConnectionError.SetRemoteDescriptionFailed }

/-- One call of the ICE-candidate API surface of `PeerConnection`. -/
inductive PeerOp where
  | addIce (c : IceCandidate)
  | setRemoteDesc (srdOk : Bool)
deriving DecidableEq

/-- Dispatch one `PeerOp` to the corresponding operation. -/
def stepOp (nadd : IceCandidate → Bool) (s : PeerIceState) :
    PeerOp → IceStepResult
  | PeerOp.addIce c => add_ice_candidate nadd s c
  | PeerOp.setRemoteDesc srdOk => set_remote_description srdOk nadd s

/-- Run a sequence of `PeerOp`s, returning the final state and the
concatenated trace of native `add_ice_candidate` calls. -/
def runOps (nadd : IceCandidate → Bool) (s : PeerIceState) :
    List PeerOp → PeerIceState × List IceCandidate
  | [] => (s, [])
  | op :: rest =>
    let r := stepOp nadd s op
    let rec' := runOps nadd r.state rest
    (rec'.1, r.nativeCalls ++ rec'.2)

/-- The five native callback registration slots of a `PeerConnection`
(`true` means a callback is currently registered). -/
structure NativeCallbacks where
  on_ice_candidate : Bool
  on_ice_candidate_error : Bool
  on_ice_connection_state_change : Bool
  on_connection_state_change : Bool
  on_track : Bool
deriving DecidableEq

/-- No callbacks registered (the native connection as freshly created). -/
def noCallbacks : NativeCallbacks :=
  { on_ice_candidate := false
    on_ice_candidate_error := false
    on_ice_connection_state_change := false
    on_connection_state_change := false
    on_track := false }

/-- `PeerConnection::bind_event_listeners`: registers all five native
callbacks (`icecandidate`, `icecandidateerror`, `iceconnectionstatechange`,
`connectionstatechange`, `track`). -/
def bind_event_listeners (cbs : NativeCallbacks) : NativeCallbacks :=
  { cbs with
    on_ice_candidate := true
    on_ice_candidate_error := true
    on_ice_connection_state_change := true
    on_connection_state_change := true
    on_track := true }

/-- `impl Drop for PeerConnection`: sets `on_track`, `on_ice_candidate` and
`on_ice_candidate_error` to `None`, in that order, and does nothing else. -/
def dropPeerConnection (cbs : NativeCallbacks) : NativeCallbacks :=
  { cbs with
    on_track := false
    on_ice_candidate := false
    on_ice_candidate_error := false }

/-- Whether every one of the five native callbacks is unregistered. -/
def allCallbacksUnregistered (cbs : NativeCallbacks) : Bool :=
  !cbs.on_ice_candidate && !cbs.on_ice_candidate_error &&
    !cbs.on_ice_connection_state_change && !cbs.on_connection_state_change &&
    !cbs.on_track

/-- One entry of a `platform::RtcStats` snapshot: a `StatId` (modelled as a
`Nat`) together with its stats content of type `V`. -/
structure RtcStat (V : Type) where
  id : Nat
  stats : V
deriving DecidableEq

/-- The `sent_stats_cache : HashMap<StatId, u64>`, modelled as an
association list from `StatId` to the last sent 64-bit hash. -/
abbrev StatsCache := List (Nat × Nat)

/-- Keyed lookup in the stats cache (`HashMap::get`). -/
def cacheLookup : StatsCache → Nat → Option Nat
  | [], _ => none
  | (k, v) :: rest, key => if key = k then some v else cacheLookup rest key

/-- Keyed insert/overwrite in the stats cache (`HashMap::insert` or
overwriting through `get_mut`). -/
def cacheInsert : StatsCache → Nat → Nat → StatsCache
  | [], key, val => [(key, val)]
  | (k, v) :: rest, key, val =>
    if key = k then (k, val) :: rest else (k, v) :: cacheInsert rest key val

/-- The deduplicating filter inside `PeerConnection::send_peer_stats`,
processing the snapshot entries in order against the cache.  For each
entry: compute the content hash `h stat.stats`; if the cache holds a hash
for `stat.id` equal to it, drop the entry (cache unchanged); if it holds a
different hash, overwrite the hash and keep the entry; if it holds none,
insert the hash and keep the entry.  Returns the kept entries in input
order together with the updated cache. -/
def dedupStats {V : Type} (h : V → Nat) :
    List (RtcStat V) → StatsCache → List (RtcStat V) × StatsCache
  | [], c => ([], c)
  | stat :: rest, c =>
    let sh := h stat.stats
    match cacheLookup c stat.id with
    | some last =>
      if last = sh then dedupStats h rest c
      else
        let r := dedupStats h rest (cacheInsert c stat.id sh)
        (stat :: r.1, r.2)
    | none =>
      let r := dedupStats h rest (cacheInsert c stat.id sh)
      (stat :: r.1, r.2)

/-- `PeerConnection::send_peer_stats`: deduplicate the snapshot against the
cache, and report whether a `PeerEvent::StatsUpdate` is emitted (it is
emitted exactly when the filtered snapshot is non-empty).  Returns
(filtered snapshot, updated cache, event emitted). -/
def send_peer_stats {V : Type} (h : V → Nat) (snapshot : List (RtcStat V))
    (cache : StatsCache) : List (RtcStat V) × StatsCache × Bool :=
  let r := dedupStats h snapshot cache
  (r.1, r.2, !r.1.isEmpty)

/-- `TracksRequestError` (opaque payload). -/
inductive TracksRequestError where
  | invalid (code : Nat)
deriving DecidableEq

/-- `InitLocalTracksError` (opaque payload). -/
inductive InitLocalTracksError where
  | failed (code : Nat)
deriving DecidableEq

/-- `InsertLocalTracksError` (opaque payload). -/
inductive InsertLocalTracksError where
  | failed (code : Nat)
deriving DecidableEq

/-- `UpdateLocalStreamError`, as in `src/peer/mod.rs`. -/
inductive UpdateLocalStreamError where
  | InvalidLocalTracks (e : TracksRequestError)
  | CouldNotGetLocalMedia (e : InitLocalTracksError)
  | InsertError (e : InsertLocalTracksError)
deriving DecidableEq

/-- The `PeerEvent` variants observable in the local-stream and stats
models (tracks and stats contents are modelled as `Nat`). -/
inductive PeerEvent where
  | NewLocalTrack (local_track : Nat)
  | FailedLocalMedia (error : UpdateLocalStreamError)
  | StatsUpdate (peer_id : Nat) (stats : List (RtcStat Nat))
deriving DecidableEq

/-- Oracles for the collaborators used by `update_local_stream`:
the track registry (`media_connections`), `SimpleTracksRequest`
construction/merging, and the `MediaManager`.  Tracks, requests and
settings are opaque tokens (`Nat`). -/
structure MediaEnv where
  tracksRequest : Option Nat
  tryFrom : Nat → Except TracksRequestError Nat
  mergeConstraints : Nat → Except TracksRequestError Nat
  settingsFrom : Nat → Nat
  getTracks : Nat → Except InitLocalTracksError (List (Nat × Bool))
  parseTracks : Nat → List Nat → Except TracksRequestError (List Nat)
  insertLocalTracks :
    List Nat → Except InsertLocalTracksError (List (Nat × Bool))

/-- `PeerConnection::get_simple_tracks_request`: ask the track registry for
the tracks request for the criteria; `None` means nothing is needed.
Otherwise build `SimpleTracksRequest::try_from(request)` and merge it with
the send constraints; either step can fail with a `TracksRequestError`. -/
def get_simple_tracks_request (env : MediaEnv) :
    Except TracksRequestError (Option Nat) :=
  match env.tracksRequest with
  | none => Except.ok none
  | some request =>
    match env.tryFrom request with
    | Except.error e => Except.error e
    | Except.ok caps =>
      match env.mergeConstraints caps with
      | Except.error e => Except.error e
      | Except.ok merged => Except.ok (some merged)

/-- Result of a local-stream update: the returned `Result` (the update map
of track id to stable media-exchange state), the `MediaManager::get_tracks`
acquisition calls made, and the `PeerEvent`s emitted, all in order. -/
structure MediaStepResult where
  result : Except UpdateLocalStreamError (List (Nat × Bool))
  acquisitionCalls : List Nat
  events : List PeerEvent
deriving DecidableEq

/-- `PeerConnection::inner_update_local_stream`: when the registry needs
nothing, return an empty map without touching the `MediaManager`.
Otherwise derive the used settings, acquire tracks (failure:
`CouldNotGetLocalMedia`), parse them against the requirements (failure:
`InvalidLocalTracks`), insert them into the registry senders (failure:
`InsertLocalTracksError`), and only then emit a `PeerEvent::NewLocalTrack`
for every freshly-acquired track. -/
def inner_update_local_stream (env : MediaEnv) : MediaStepResult :=
  match get_simple_tracks_request env with
  | Except.error e =>
    { result := Except.error (UpdateLocalStreamError.InvalidLocalTracks e)
      acquisitionCalls := []
      events := [] }
  | Except.ok none =>
    { result := Except.ok [], acquisitionCalls := [], events := [] }
  | Except.ok (some required_caps) =>
    let used_caps := env.settingsFrom required_caps
    match env.getTracks used_caps with
    | Except.error e =>
      { result := Except.error (UpdateLocalStreamError.CouldNotGetLocalMedia e)
        acquisitionCalls := [used_caps]
        events := [] }
    | Except.ok media_tracks =>
      match env.parseTracks required_caps (media_tracks.map Prod.fst) with
      | Except.error e =>
        { result := Except.error (UpdateLocalStreamError.InvalidLocalTracks e)
          acquisitionCalls := [used_caps]
          events := [] }
      | Except.ok peer_tracks =>
        match env.insertLocalTracks peer_tracks with
        | Except.error e =>
          { result := Except.error (UpdateLocalStreamError.InsertError e)
            acquisitionCalls := [used_caps]
            events := [] }
        | Except.ok updates =>
          { result := Except.ok updates
            acquisitionCalls := [used_caps]
            events :=
              (media_tracks.filter (fun t => t.2)).map
                (fun t => PeerEvent.NewLocalTrack t.1) }

/-- `PeerConnection::update_local_stream`: run
`inner_update_local_stream` and, on error, additionally emit a
`PeerEvent::FailedLocalMedia` carrying the error before returning it
(`inspect_err`). -/
def update_local_stream (env : MediaEnv) : MediaStepResult :=
  let r := inner_update_local_stream env
  match r.result with
  | Except.error e =>
    { r with events := r.events ++ [PeerEvent.FailedLocalMedia e] }
  | Except.ok _ => r

/-- A concrete collaborator environment in which the track registry
reports that no local tracks are needed. -/
def noopMediaEnv : MediaEnv :=
  { tracksRequest := none
    tryFrom := fun r => Except.ok r
    mergeConstraints := fun r => Except.ok r
    settingsFrom := fun r => r
    getTracks := fun _ => Except.ok []
    parseTracks := fun _ ts => Except.ok ts
    insertLocalTracks := fun _ => Except.ok [] }

/-- A concrete collaborator environment in which building the
`SimpleTracksRequest` fails, so `update_local_stream` fails with
`InvalidLocalTracks`. -/
def failingMediaEnv : MediaEnv :=
  { tracksRequest := some 0
    tryFrom := fun _ => Except.error (TracksRequestError.invalid 1)
    mergeConstraints := fun r => Except.ok r
    settingsFrom := fun r => r
    getTracks := fun _ => Except.ok []
    parseTracks := fun _ ts => Except.ok ts
    insertLocalTracks := fun _ => Except.ok [] }

/-- A concrete candidate (the one from the end-to-end scenario of the
spec), used to instantiate universally quantified theorems. -/
def sampleCandidate : IceCandidate :=
  { candidate := "candidate:1", sdp_m_line_index := some 0,
    sdp_mid := some "0" }

/-- The flag/buffer invariant is preserved by every single operation:
whenever the buffer is non-empty, `has_remote_description` is false. -/
theorem iceInv_step (nadd : IceCandidate → Bool) (s : PeerIceState)
    (op : PeerOp)
    (h : s.ice_candidates_buffer ≠ [] → s.has_remote_description = false) :
    (stepOp nadd s op).state.ice_candidates_buffer ≠ [] →
      (stepOp nadd s op).state.has_remote_description = false := by
  cases op with
  | addIce c =>
    by_cases hs : s.has_remote_description = true
    · simpa [stepOp, add_ice_candidate, hs] using h
    · have hs' : s.has_remote_description = false := by
        simpa using hs
      intro _
      simp [stepOp, add_ice_candidate, hs']
  | setRemoteDesc srdOk =>
    cases srdOk with
    | true => simp [stepOp, set_remote_description]
    | false => simpa [stepOp, set_remote_description] using h

/-- The flag/buffer invariant is preserved by every sequence of
operations. -/
theorem iceInv_runOps (nadd : IceCandidate → Bool) (ops : List PeerOp)
    (s : PeerIceState)
    (h : s.ice_candidates_buffer ≠ [] → s.has_remote_description = false) :
    (runOps nadd s ops).1.ice_candidates_buffer ≠ [] →
      (runOps nadd s ops).1.has_remote_description = false := by
  induction ops generalizing s with
  | nil => simpa [runOps] using h
  | cons op rest ih =>
    simpa [runOps] using ih (stepOp nadd s op).state (iceInv_step nadd s op h)

/-- While `has_remote_description` is false, a run of `add_ice_candidate`
calls only appends to the buffer, in order, and makes no native call. -/
theorem runOps_buffering (nadd : IceCandidate → Bool)
    (cs : List IceCandidate) (b : List IceCandidate) :
    runOps nadd
        { has_remote_description := false, ice_candidates_buffer := b }
        (cs.map PeerOp.addIce) =
      ({ has_remote_description := false, ice_candidates_buffer := b ++ cs },
        []) := by
  induction cs generalizing b with
  | nil => simp [runOps]
  | cons c rest ih =>
    simp [runOps, stepOp, add_ice_candidate, ih (b ++ [c])]

/-- Once `has_remote_description` is true and the buffer is empty, a run of
`add_ice_candidate` calls goes straight to the native connection, in order,
and the buffer stays empty. -/
theorem runOps_passthrough (nadd : IceCandidate → Bool)
    (cs : List IceCandidate) :
    runOps nadd
        { has_remote_description := true, ice_candidates_buffer := [] }
        (cs.map PeerOp.addIce) =
      ({ has_remote_description := true, ice_candidates_buffer := [] },
        cs) := by
  induction cs with
  | nil => simp [runOps]
  | cons c rest ih => simp [runOps, stepOp, add_ice_candidate, ih]

/-- **C1.** Joint flag/buffer consistency: along every operation sequence
from the initial state the buffer is non-empty only while the
"remote description applied" flag is false; a sequence of
`add_ice_candidate` calls issued before `set_remote_description` makes no
native call and leaves exactly those candidates buffered in order; the
flush inside a successful `set_remote_description` then submits exactly
those candidates, in the same relative order, to the native connection,
and leaves the flag true with an empty buffer. -/
theorem ice_candidate_buffering_consistency (nadd : IceCandidate → Bool)
    (cs : List IceCandidate) :
    (∀ ops : List PeerOp,
        (runOps nadd initialIceState ops).1.ice_candidates_buffer ≠ [] →
        (runOps nadd initialIceState ops).1.has_remote_description =
          false) ∧
    runOps nadd initialIceState (cs.map PeerOp.addIce) =
      ({ has_remote_description := false, ice_candidates_buffer := cs },
        []) ∧
    (set_remote_description true nadd
        (runOps nadd initialIceState (cs.map PeerOp.addIce)).1).nativeCalls =
      cs ∧
    (set_remote_description true nadd
        (runOps nadd initialIceState (cs.map PeerOp.addIce)).1).state =
      { has_remote_description := true, ice_candidates_buffer := [] } := by
  have hrun :
      runOps nadd initialIceState (cs.map PeerOp.addIce) =
        ({ has_remote_description := false, ice_candidates_buffer := cs },
          []) := by
    simpa [initialIceState] using runOps_buffering nadd cs []
  refine ⟨fun ops => iceInv_runOps nadd ops initialIceState ?_, hrun, ?_, ?_⟩
  · simp [initialIceState]
  · rw [hrun]
    simp [set_remote_description]
  · rw [hrun]
    simp [set_remote_description]

/-- Witness for C1 at the concrete one-candidate scenario of the spec. -/
theorem ice_candidate_buffering_consistency_witness :
    (runOps (fun _ => true) initialIceState
        ([sampleCandidate].map PeerOp.addIce)).1.has_remote_description =
      false :=
  (ice_candidate_buffering_consistency (fun _ => true) [sampleCandidate]).1
    ([sampleCandidate].map PeerOp.addIce) (by decide)

/-- **C2.** Best-effort flush: a successful `set_remote_description`
submits every buffered candidate to the native connection (all submissions
are attempted, in buffer order), leaves the buffer empty whatever the
submission outcomes are, and returns `AddIceCandidateFailed` exactly when
some submission fails. -/
theorem set_remote_description_best_effort_flush
    (nadd : IceCandidate → Bool) (s : PeerIceState) :
    (set_remote_description true nadd s).nativeCalls =
      s.ice_candidates_buffer ∧
    (set_remote_description true nadd s).state.ice_candidates_buffer =
      [] ∧
    ((set_remote_description true nadd s).result =
        Except.error RtcPeerConnectionError.AddIceCandidateFailed ↔
      s.ice_candidates_buffer.all nadd = false) := by
  refine ⟨rfl, rfl, ?_⟩
  by_cases h : s.ice_candidates_buffer.all nadd
  · simp [set_remote_description, h]
  · simp only [Bool.not_eq_true] at h
    simp [set_remote_description, h]

/-- Witness for C2 at a one-candidate buffer and a rejecting native
connection: the buffer is drained even though the submission fails. -/
theorem set_remote_description_best_effort_flush_witness :
    (set_remote_description true (fun _ => false)
        { has_remote_description := false
          ice_candidates_buffer :=
            [sampleCandidate] }).state.ice_candidates_buffer = [] :=
  (set_remote_description_best_effort_flush (fun _ => false)
      { has_remote_description := false
        ice_candidates_buffer := [sampleCandidate] }).2.1

/-- **C4.** Atomicity on native failure: when the native
`set_remote_description` fails, the operation returns
`SetRemoteDescriptionFailed`, makes no candidate submission, and leaves
the whole state (flag and buffer) unchanged. -/
theorem set_remote_description_failure_atomic (nadd : IceCandidate → Bool)
    (s : PeerIceState) :
    set_remote_description false nadd s =
      { state := s, nativeCalls := []
        result :=
          Except.error RtcPeerConnectionError.SetRemoteDescriptionFailed } :=
  rfl

/-- Witness for C4 at the initial state. -/
theorem set_remote_description_failure_atomic_witness :
    set_remote_description false (fun _ => true) initialIceState =
      { state := initialIceState, nativeCalls := []
        result :=
          Except.error RtcPeerConnectionError.SetRemoteDescriptionFailed } :=
  set_remote_description_failure_atomic (fun _ => true) initialIceState

/-- **C5.** Ingestion dichotomy: with the flag true, `add_ice_candidate`
submits directly to the native connection, never touches the buffer, and
fails with `AddIceCandidateFailed` exactly when the native submission is
rejected; with the flag false it appends to the buffer and returns `Ok`
unconditionally; and after a successful flush (flag true, empty buffer)
every further candidate reaches the native connection directly without
ever appearing in the buffer. -/
theorem add_ice_candidate_dichotomy (nadd : IceCandidate → Bool)
    (s : PeerIceState) (c : IceCandidate) :
    (s.has_remote_description = true →
      (add_ice_candidate nadd s c).state = s ∧
      (add_ice_candidate nadd s c).nativeCalls = [c] ∧
      ((add_ice_candidate nadd s c).result =
          Except.error RtcPeerConnectionError.AddIceCandidateFailed ↔
        nadd c = false)) ∧
    (s.has_remote_description = false →
      (add_ice_candidate nadd s c).state =
        { s with
          ice_candidates_buffer := s.ice_candidates_buffer ++ [c] } ∧
      (add_ice_candidate nadd s c).nativeCalls = [] ∧
      (add_ice_candidate nadd s c).result = Except.ok ()) ∧
    (∀ cs : List IceCandidate,
      runOps nadd
          { has_remote_description := true, ice_candidates_buffer := [] }
          (cs.map PeerOp.addIce) =
        ({ has_remote_description := true, ice_candidates_buffer := [] },
          cs)) := by
  refine ⟨?_, ?_, fun cs => runOps_passthrough nadd cs⟩
  · intro hs
    refine ⟨by simp [add_ice_candidate, hs], by simp [add_ice_candidate, hs],
      ?_⟩
    by_cases hc : nadd c
    · simp [add_ice_candidate, hs, hc]
    · simp only [Bool.not_eq_true] at hc
      simp [add_ice_candidate, hs, hc]
  · intro hs
    exact ⟨by simp [add_ice_candidate, hs], by simp [add_ice_candidate, hs],
      by simp [add_ice_candidate, hs]⟩

/-- Witness for C5: direct native submission with the flag set, at a
rejecting native connection. -/
theorem add_ice_candidate_dichotomy_witness :
    (add_ice_candidate (fun _ => false)
        { has_remote_description := true, ice_candidates_buffer := [] }
        sampleCandidate).result =
      Except.error RtcPeerConnectionError.AddIceCandidateFailed :=
  ((add_ice_candidate_dichotomy (fun _ => false)
      { has_remote_description := true, ice_candidates_buffer := [] }
      sampleCandidate).1 rfl).2.2.mpr rfl

/-- **C3 counterexample.** After `Drop` runs on a fully-bound
`PeerConnection`, the ICE-connection-state-changed and
connection-state-changed native callbacks are still registered, so not all
native callbacks are unregistered on destruction. -/
theorem drop_leaves_state_callbacks_registered :
    allCallbacksUnregistered
        (dropPeerConnection (bind_event_listeners noCallbacks)) = false ∧
    (dropPeerConnection
        (bind_event_listeners noCallbacks)).on_ice_connection_state_change =
      true ∧
    (dropPeerConnection
        (bind_event_listeners noCallbacks)).on_connection_state_change =
      true := by
  decide

/-- **C3 (amended).** On destruction, the remote-track, ICE-candidate
discovered and ICE-candidate-error native callbacks are unregistered (set
to none) before any other cleanup (the `Drop` impl does nothing else),
while the ICE-connection-state-changed and connection-state-changed
callbacks are left as they were. -/
theorem drop_unregisters_track_and_candidate_callbacks
    (cbs : NativeCallbacks) :
    (dropPeerConnection cbs).on_track = false ∧
    (dropPeerConnection cbs).on_ice_candidate = false ∧
    (dropPeerConnection cbs).on_ice_candidate_error = false ∧
    (dropPeerConnection cbs).on_ice_connection_state_change =
      cbs.on_ice_connection_state_change ∧
    (dropPeerConnection cbs).on_connection_state_change =
      cbs.on_connection_state_change :=
  ⟨rfl, rfl, rfl, rfl, rfl⟩

/-- Witness for C3 (amended) at a fully-bound `PeerConnection`. -/
theorem drop_unregisters_track_and_candidate_callbacks_witness :
    (dropPeerConnection (bind_event_listeners noCallbacks)).on_track =
      false ∧
    (dropPeerConnection
        (bind_event_listeners noCallbacks)).on_ice_candidate = false ∧
    (dropPeerConnection
        (bind_event_listeners noCallbacks)).on_ice_candidate_error =
      false ∧
    (dropPeerConnection
        (bind_event_listeners noCallbacks)).on_ice_connection_state_change =
      (bind_event_listeners noCallbacks).on_ice_connection_state_change ∧
    (dropPeerConnection
        (bind_event_listeners noCallbacks)).on_connection_state_change =
      (bind_event_listeners noCallbacks).on_connection_state_change :=
  drop_unregisters_track_and_candidate_callbacks
    (bind_event_listeners noCallbacks)

/-- Inserting a key makes it present with the inserted value. -/
theorem cacheLookup_cacheInsert_self (c : StatsCache) (k v : Nat) :
    cacheLookup (cacheInsert c k v) k = some v := by
  induction c with
  | nil => simp [cacheInsert, cacheLookup]
  | cons p rest ih =>
    obtain ⟨k0, v0⟩ := p
    by_cases hk : k = k0
    · simp [cacheInsert, cacheLookup, hk]
    · simp [cacheInsert, cacheLookup, hk, ih]

/-- Inserting a key leaves every other key unchanged. -/
theorem cacheLookup_cacheInsert_other (c : StatsCache) (k v k' : Nat)
    (h : k' ≠ k) :
    cacheLookup (cacheInsert c k v) k' = cacheLookup c k' := by
  induction c with
  | nil => simp [cacheInsert, cacheLookup, h]
  | cons p rest ih =>
    obtain ⟨k0, v0⟩ := p
    by_cases hk : k = k0
    · subst hk
      simp [cacheInsert, cacheLookup, h]
    · by_cases hk' : k' = k0 <;>
        simp [cacheInsert, cacheLookup, hk, hk', ih]

/-- Inserting never removes a key. -/
theorem cacheLookup_cacheInsert_isSome (c : StatsCache) (k v k' : Nat)
    (h : (cacheLookup c k').isSome) :
    (cacheLookup (cacheInsert c k v) k').isSome := by
  by_cases hk : k' = k
  · subst hk
    simp [cacheLookup_cacheInsert_self]
  · rwa [cacheLookup_cacheInsert_other c k v k' hk]

/-- A dedup pass does not touch cache keys outside the snapshot ids. -/
theorem dedupStats_cache_untouched {V : Type} (h : V → Nat)
    (S : List (RtcStat V)) (c : StatsCache) (k : Nat)
    (hk : k ∉ S.map RtcStat.id) :
    cacheLookup (dedupStats h S c).2 k = cacheLookup c k := by
  induction S generalizing c with
  | nil => simp [dedupStats]
  | cons s rest ih =>
    simp only [List.map_cons, List.mem_cons, not_or] at hk
    obtain ⟨hk1, hk2⟩ := hk
    rcases hc : cacheLookup c s.id with _ | last
    · simp only [dedupStats, hc]
      rw [ih (cacheInsert c s.id (h s.stats)) hk2,
        cacheLookup_cacheInsert_other c s.id (h s.stats) k hk1]
    · by_cases hl : last = h s.stats
      · simp only [dedupStats, hc, if_pos hl]
        exact ih c hk2
      · simp only [dedupStats, hc, if_neg hl]
        rw [ih (cacheInsert c s.id (h s.stats)) hk2,
          cacheLookup_cacheInsert_other c s.id (h s.stats) k hk1]

/-- After a dedup pass over a snapshot with pairwise-distinct ids, the
cache holds, for every snapshot entry, exactly the hash of its content. -/
theorem dedupStats_cache_settled {V : Type} (h : V → Nat)
    (S : List (RtcStat V)) (c : StatsCache)
    (hnd : (S.map RtcStat.id).Nodup) :
    ∀ s ∈ S, cacheLookup (dedupStats h S c).2 s.id = some (h s.stats) := by
  induction S generalizing c with
  | nil => simp
  | cons s rest ih =>
    simp only [List.map_cons, List.nodup_cons] at hnd
    obtain ⟨hs_notin, hnd'⟩ := hnd
    have key :
        ∀ c1 : StatsCache, cacheLookup c1 s.id = some (h s.stats) →
          ∀ t ∈ s :: rest,
            cacheLookup (dedupStats h rest c1).2 t.id = some (h t.stats) := by
      intro c1 hc1 t ht
      rcases List.mem_cons.mp ht with rfl | ht'
      · rw [dedupStats_cache_untouched h rest c1 t.id hs_notin]
        exact hc1
      · exact ih c1 hnd' t ht'
    rcases hc : cacheLookup c s.id with _ | last
    · simpa only [dedupStats, hc] using
        key (cacheInsert c s.id (h s.stats))
          (cacheLookup_cacheInsert_self c s.id (h s.stats))
    · by_cases hl : last = h s.stats
      · subst hl
        simpa only [dedupStats, hc, if_pos rfl] using key c hc
      · simpa only [dedupStats, hc, if_neg hl] using
          key (cacheInsert c s.id (h s.stats))
          (cacheLookup_cacheInsert_self c s.id (h s.stats))

/-- When every snapshot entry already has its current hash in the cache,
the dedup pass drops everything and leaves the cache unchanged. -/
theorem dedupStats_all_match {V : Type} (h : V → Nat)
    (S : List (RtcStat V)) (c : StatsCache)
    (hall : ∀ s ∈ S, cacheLookup c s.id = some (h s.stats)) :
    dedupStats h S c = ([], c) := by
  induction S with
  | nil => simp [dedupStats]
  | cons s rest ih =>
    have hc : cacheLookup c s.id = some (h s.stats) :=
      hall s (List.mem_cons_self s rest)
    simp only [dedupStats, hc, if_pos rfl]
    exact ih fun t ht => hall t (List.mem_cons_of_mem s ht)

/-- A prefix of entries whose current hashes are already cached is dropped
without changing the cache. -/
theorem dedupStats_skip_settled {V : Type} (h : V → Nat)
    (A T : List (RtcStat V)) (c : StatsCache)
    (hall : ∀ a ∈ A, cacheLookup c a.id = some (h a.stats)) :
    dedupStats h (A ++ T) c = dedupStats h T c := by
  induction A with
  | nil => simp
  | cons a A1 ih =>
    have hc : cacheLookup c a.id = some (h a.stats) :=
      hall a (List.mem_cons_self a A1)
    simp only [List.cons_append, dedupStats, hc, if_pos rfl]
    exact ih fun t ht => hall t (List.mem_cons_of_mem a ht)

/-- The filtered output of a dedup pass is an order-preserving
subsequence of the input snapshot. -/
theorem dedupStats_sublist {V : Type} (h : V → Nat)
    (S : List (RtcStat V)) (c : StatsCache) :
    List.Sublist (dedupStats h S c).1 S := by
  induction S generalizing c with
  | nil => simp [dedupStats]
  | cons s rest ih =>
    rcases hc : cacheLookup c s.id with _ | last
    · simpa only [dedupStats, hc] using
        List.Sublist.cons₂ s (ih (cacheInsert c s.id (h s.stats)))
    · by_cases hl : last = h s.stats
      · simpa only [dedupStats, hc, if_pos hl] using
          List.Sublist.cons s (ih c)
      · simpa only [dedupStats, hc, if_neg hl] using
          List.Sublist.cons₂ s (ih (cacheInsert c s.id (h s.stats)))

/-- **C6.** The stats deduplication rule of `send_peer_stats`: per entry,
an id with no cached hash is kept and its hash is recorded; a cached hash
that differs is overwritten and the entry is kept; a matching hash drops
the entry and leaves the cache unchanged.  The filtered output is an
order-preserving subsequence of the input, a `StatsUpdate` event is
emitted iff the filtered output is non-empty, and the hash cache never
shrinks: every cached id stays cached. -/
theorem send_peer_stats_dedup_rule {V : Type} (h : V → Nat)
    (S : List (RtcStat V)) (c : StatsCache) (s : RtcStat V)
    (rest : List (RtcStat V)) :
    (cacheLookup c s.id = none →
      dedupStats h (s :: rest) c =
        (s :: (dedupStats h rest (cacheInsert c s.id (h s.stats))).1,
          (dedupStats h rest (cacheInsert c s.id (h s.stats))).2)) ∧
    (∀ last, cacheLookup c s.id = some last → last ≠ h s.stats →
      dedupStats h (s :: rest) c =
        (s :: (dedupStats h rest (cacheInsert c s.id (h s.stats))).1,
          (dedupStats h rest (cacheInsert c s.id (h s.stats))).2)) ∧
    (cacheLookup c s.id = some (h s.stats) →
      dedupStats h (s :: rest) c = dedupStats h rest c) ∧
    List.Sublist (dedupStats h S c).1 S ∧
    ((send_peer_stats h S c).2.2 = true ↔ (send_peer_stats h S c).1 ≠ []) ∧
    (∀ k, (cacheLookup c k).isSome →
      (cacheLookup (dedupStats h S c).2 k).isSome) := by
  refine ⟨?_, ?_, ?_, dedupStats_sublist h S c, ?_, ?_⟩
  · intro hc
    simp [dedupStats, hc]
  · intro last hc hl
    simp [dedupStats, hc, hl]
  · intro hc
    simp [dedupStats, hc]
  · cases hr : (dedupStats h S c).1 <;> simp [send_peer_stats, hr]
  · intro k
    induction S generalizing c with
    | nil => simp [dedupStats]
    | cons t rest2 ih =>
      intro hk
      rcases hc : cacheLookup c t.id with _ | last
      · simp only [dedupStats, hc]
        exact ih (cacheInsert c t.id (h t.stats))
          (cacheLookup_cacheInsert_isSome c t.id (h t.stats) k hk)
      · by_cases hl : last = h t.stats
        · simp only [dedupStats, hc, if_pos hl]
          exact ih c hk
        · simp only [dedupStats, hc, if_neg hl]
          exact ih (cacheInsert c t.id (h t.stats))
            (cacheLookup_cacheInsert_isSome c t.id (h t.stats) k hk)

/-- Witness for C6: a fresh id is kept and recorded. -/
theorem send_peer_stats_dedup_rule_witness :
    dedupStats (fun v : Nat => v) [RtcStat.mk 0 5] [] =
      ([RtcStat.mk 0 5],
        (dedupStats (fun v : Nat => v) [] (cacheInsert [] 0 5)).2) :=
  (send_peer_stats_dedup_rule (fun v : Nat => v) [] []
      (RtcStat.mk 0 5) []).1 rfl

/-- **C7 counterexample.** For the snapshot `[⟨id 0, 1⟩, ⟨id 0, 2⟩]`
(two entries sharing one id with different contents) and the identity
content hash, sending the identical snapshot twice through
`send_peer_stats` yields a non-empty filtered result — and hence a
`StatsUpdate` event — on the second call as well, refuting the claim as
stated. -/
theorem stats_dedup_idempotence_counterexample :
    (send_peer_stats (fun v : Nat => v) [RtcStat.mk 0 1, RtcStat.mk 0 2]
        []).2.2 = true ∧
    (send_peer_stats (fun v : Nat => v) [RtcStat.mk 0 1, RtcStat.mk 0 2]
        (send_peer_stats (fun v : Nat => v)
          [RtcStat.mk 0 1, RtcStat.mk 0 2] []).2.1).2.2 = true := by
  decide

/-- **C7 (amended).** For snapshots whose metric ids are pairwise
distinct: sending the identical snapshot twice in succession yields an
empty filtered result on the second call; and a second snapshot equal to
the first except for one metric whose content hash differs yields a
filtered result of exactly that one entry. -/
theorem stats_dedup_idempotence {V : Type} (h : V → Nat) (c : StatsCache)
    (A B : List (RtcStat V)) (s s2 : RtcStat V)
    (hnd : ((A ++ s :: B).map RtcStat.id).Nodup)
    (hid : s2.id = s.id) (hh : h s2.stats ≠ h s.stats) :
    (dedupStats h (A ++ s :: B)
        (dedupStats h (A ++ s :: B) c).2).1 = [] ∧
    (dedupStats h (A ++ s2 :: B)
        (dedupStats h (A ++ s :: B) c).2).1 = [s2] := by
  have hsettled :
      ∀ t ∈ A ++ s :: B,
        cacheLookup (dedupStats h (A ++ s :: B) c).2 t.id =
          some (h t.stats) :=
    dedupStats_cache_settled h (A ++ s :: B) c hnd
  constructor
  · rw [dedupStats_all_match h (A ++ s :: B)
      (dedupStats h (A ++ s :: B) c).2 hsettled]
  · have hA :
        ∀ a ∈ A,
          cacheLookup (dedupStats h (A ++ s :: B) c).2 a.id =
            some (h a.stats) :=
      fun a ha => hsettled a (List.mem_append_left _ ha)
    rw [dedupStats_skip_settled h A (s2 :: B)
      (dedupStats h (A ++ s :: B) c).2 hA]
    have hs2 :
        cacheLookup (dedupStats h (A ++ s :: B) c).2 s2.id =
          some (h s.stats) := by
      rw [hid]
      exact hsettled s (List.mem_append_right _ (List.mem_cons_self s B))
    have hne : ¬ h s.stats = h s2.stats := fun e => hh e.symm
    have hsid_notin : s.id ∉ B.map RtcStat.id := by
      have h1 : (List.map RtcStat.id A ++
          s.id :: List.map RtcStat.id B).Nodup := by
        simpa using hnd
      have h2 : (s.id :: List.map RtcStat.id B).Nodup :=
        h1.of_append_right
      exact (List.nodup_cons.mp h2).1
    have hB :
        ∀ b ∈ B,
          cacheLookup
              (cacheInsert (dedupStats h (A ++ s :: B) c).2 s2.id
                (h s2.stats)) b.id =
            some (h b.stats) := by
      intro b hb
      have hbid : b.id ≠ s2.id := by
        rw [hid]
        intro he
        exact hsid_notin (he ▸ List.mem_map_of_mem RtcStat.id hb)
      rw [cacheLookup_cacheInsert_other _ s2.id (h s2.stats) b.id hbid]
      exact hsettled b (List.mem_append_right _ (List.mem_cons_of_mem s hb))
    simp only [dedupStats, hs2, if_neg hne]
    rw [dedupStats_all_match h B
      (cacheInsert (dedupStats h (A ++ s :: B) c).2 s2.id (h s2.stats)) hB]

/-- Witness for C7 (amended) at a concrete three-metric snapshot with one
changed metric. -/
theorem stats_dedup_idempotence_witness :
    (dedupStats (fun v : Nat => v)
        ([RtcStat.mk 1 10] ++ RtcStat.mk 0 5 :: [RtcStat.mk 2 20])
        (dedupStats (fun v : Nat => v)
          ([RtcStat.mk 1 10] ++ RtcStat.mk 0 5 :: [RtcStat.mk 2 20])
          []).2).1 = [] ∧
    (dedupStats (fun v : Nat => v)
        ([RtcStat.mk 1 10] ++ RtcStat.mk 0 7 :: [RtcStat.mk 2 20])
        (dedupStats (fun v : Nat => v)
          ([RtcStat.mk 1 10] ++ RtcStat.mk 0 5 :: [RtcStat.mk 2 20])
          []).2).1 = [RtcStat.mk 0 7] :=
  stats_dedup_idempotence (fun v : Nat => v) [] [RtcStat.mk 1 10]
    [RtcStat.mk 2 20] (RtcStat.mk 0 5) (RtcStat.mk 0 7) (by decide) rfl
    (by decide)

/-- On every failing path of `inner_update_local_stream`, no event at all
is emitted, because the `NewLocalTrack` emission loop runs only after
registry insertion has succeeded. -/
theorem inner_update_local_stream_error_no_events (env : MediaEnv)
    (e : UpdateLocalStreamError)
    (h : (inner_update_local_stream env).result = Except.error e) :
    (inner_update_local_stream env).events = [] := by
  unfold inner_update_local_stream at h ⊢
  rcases hq : get_simple_tracks_request env with e1 | o
  · simp [hq]
  · rcases o with _ | caps
    · simp [hq] at h
    · simp only [hq] at h ⊢
      rcases hg : env.getTracks (env.settingsFrom caps) with e2 | tracks
      · simp [hg]
      · simp only [hg] at h ⊢
        rcases hp : env.parseTracks caps (tracks.map Prod.fst) with e3 | pts
        · simp [hp]
        · simp only [hp] at h ⊢
          rcases hi : env.insertLocalTracks pts with e4 | ups
          · simp [hi]
          · simp [hi] at h

/-- **C8.** Local-stream no-op: when the track registry reports that no
local tracks are needed for the criteria, `update_local_stream` returns
success with an empty update map, makes no call to the media-acquisition
collaborator, and emits no event at all (in particular no
`NewLocalTrack` event). -/
theorem update_local_stream_noop (env : MediaEnv)
    (h : env.tracksRequest = none) :
    update_local_stream env =
      { result := Except.ok [], acquisitionCalls := [], events := [] } := by
  have hinner : inner_update_local_stream env =
      { result := Except.ok [], acquisitionCalls := [], events := [] } := by
    simp [inner_update_local_stream, get_simple_tracks_request, h]
  simp [update_local_stream, hinner]

/-- Witness for C8 at a concrete no-op environment. -/
theorem update_local_stream_noop_witness :
    update_local_stream noopMediaEnv =
      { result := Except.ok [], acquisitionCalls := [], events := [] } :=
  update_local_stream_noop noopMediaEnv rfl

/-- **C9.** Failure notification: whenever `update_local_stream` fails,
a `FailedLocalMedia` event carrying the error cause is emitted on the
event channel, after the inner events and before the error is returned to
the caller. -/
theorem update_local_stream_failure_notification (env : MediaEnv)
    (e : UpdateLocalStreamError)
    (h : (update_local_stream env).result = Except.error e) :
    (update_local_stream env).events =
      (inner_update_local_stream env).events ++
        [PeerEvent.FailedLocalMedia e] := by
  rcases hr : (inner_update_local_stream env).result with e0 | v
  · have he : e0 = e := by
      simp [update_local_stream, hr] at h
      exact h
    subst he
    simp [update_local_stream, hr]
  · simp [update_local_stream, hr] at h

/-- Witness for C9 at a concrete failing environment. -/
theorem update_local_stream_failure_notification_witness :
    (update_local_stream failingMediaEnv).events =
      (inner_update_local_stream failingMediaEnv).events ++
        [PeerEvent.FailedLocalMedia
          (UpdateLocalStreamError.InvalidLocalTracks
            (TracksRequestError.invalid 1))] :=
  update_local_stream_failure_notification failingMediaEnv
    (UpdateLocalStreamError.InvalidLocalTracks
      (TracksRequestError.invalid 1)) rfl

/-- **C10.** No `NewLocalTrack` event on failure: for every failing call
to `update_local_stream`, whatever the failing step, no `NewLocalTrack`
event is emitted. -/
theorem update_local_stream_no_new_track_on_failure (env : MediaEnv)
    (e : UpdateLocalStreamError)
    (h : (update_local_stream env).result = Except.error e) :
    ∀ t, PeerEvent.NewLocalTrack t ∉ (update_local_stream env).events := by
  intro t
  rcases hr : (inner_update_local_stream env).result with e0 | v
  · have hev := inner_update_local_stream_error_no_events env e0 hr
    simp [update_local_stream, hr, hev]
  · simp [update_local_stream, hr] at h

/-- Witness for C10 at a concrete failing environment. -/
theorem update_local_stream_no_new_track_on_failure_witness :
    PeerEvent.NewLocalTrack 0 ∉ (update_local_stream failingMediaEnv).events :=
  update_local_stream_no_new_track_on_failure failingMediaEnv
    (UpdateLocalStreamError.InvalidLocalTracks
      (TracksRequestError.invalid 1)) rfl 0

end Medea
